import Mathlib

/-!
Verification development for the portacode device-side agent.

The definitions below are shallow embeddings of the Python sources:
- `portacode/connection/handlers/automation_v2_handlers.py` (automation runtime),
- `portacode/connection/client.py` and `portacode/exit_codes.py` (connection supervisor),
- `portacode/tunneling/privileged.py` and `portacode/tunneling/forwarding_state.py`
  (persisted-file writers),
- `portacode/connection/handlers/cloudflare_forwarding.py` (expose-ports handler and
  the managed `/etc/environment` / shell-hook rewriting).

Python strings are modelled as `List Char` (`Str`) where character-level behaviour
matters (truncation, line splitting, stripping); identifiers and messages that are
only compared for equality are modelled as Lean `String`.  Machine floats that are
only stored and compared (never arithmetically combined) are modelled as `Rat`;
wall-clock timestamps are abstract `Nat` values passed in as parameters.
-/

namespace Portacode

deriving instance DecidableEq for Except

/-- Python strings at character granularity. -/
abbrev Str := List Char

/-- Convert a Lean string literal to the character-list model. -/
def strL (s : String) : Str := s.toList

/-- Python's default whitespace class restricted to ASCII
(`' '`, `'\t'`, `'\n'`, `'\r'`, `'\x0b'`, `'\x0c'`). -/
def pySpace (c : Char) : Bool :=
  c = ' ' || c = '\t' || c = '\n' || c = '\r' || c = '\x0b' || c = '\x0c'

/-- Python `str.lstrip()`. -/
def lstripL (l : Str) : Str := l.dropWhile pySpace

/-- Python `str.rstrip()`. -/
def rstripL (l : Str) : Str := ((l.reverse).dropWhile pySpace).reverse

/-- Python `str.strip()`. -/
def stripL (l : Str) : Str := rstripL (lstripL l)

/-- Python `str.strip()` on the `String` type (used for identifiers). -/
def pyStrip (s : String) : String := ⟨stripL s.toList⟩

/-- Split a character list at every occurrence of `c` (Python `str.split(c)`:
always returns at least one, possibly empty, segment; the result is never
empty, so `headD`/`tail` lose nothing). -/
def splitOnCharL (c : Char) : Str → List Str
  | [] => [[]]
  | x :: xs =>
    if x = c then [] :: splitOnCharL c xs
    else (x :: (splitOnCharL c xs).headD []) :: (splitOnCharL c xs).tail

/-- Python truthiness of `x or y` for strings (empty string is falsy). -/
def pyOrS (a b : Str) : Str := if a = [] then b else a

section AutomationConstants

/-- automation_v2_handlers.py line 30. -/
def DEFAULT_STEP_TIMEOUT_SECONDS : Rat := 7200

/-- automation_v2_handlers.py line 31. -/
def MAX_STDIO_CHARS : Nat := 8000

/-- automation_v2_handlers.py line 39. -/
def WAIT_FOR_DEFAULT_TIMEOUT_SECONDS : Rat := 600

end AutomationConstants

/-- The truncation marker appended by `_trim_text`
(`f"\n...[truncated to {max_chars} chars]"`). -/
def truncationSuffix (max_chars : Nat) : Str :=
  strL ("\n...[truncated to " ++ toString max_chars ++ " chars]")

/-- `_trim_text` (automation_v2_handlers.py lines 42-47): texts no longer than
`max_chars` pass through; longer texts are cut so that text plus marker is
exactly `max_chars` characters. -/
def trimText (text : Str) (max_chars : Nat) : Str :=
  if text.length ≤ max_chars then text
  else text.take (max_chars - (truncationSuffix max_chars).length) ++ truncationSuffix max_chars

/-! ## Automation v2 runtime (`_AutomationRuntimeV2`)

The runtime's in-memory document is `{"active_task_id", "tasks", "updated_at"}`.
Tasks are stored in an insertion-ordered string-keyed dictionary, modelled as an
association list with Python `dict` update semantics (`dictSet`).  The single
runner asyncio task (`self._runner_task`) and the live subprocess bookkeeping
(`self._current_process_task_id`) are part of the system state `Sys`.  Each
lock-protected critical section of the Python code becomes one atomic transition;
the event loop may interleave command handlers between any two critical sections
of the runner coroutine, which the label-trace semantics `sysRun` captures. -/

/-- Task status strings stored in `task_state["status"]`. -/
inductive TStatus
  | pending
  | running
  | success
  | failed
  | cancelled
deriving DecidableEq

/-- Step/`current_step_status` strings. -/
inductive SStatus
  | pending
  | running
  | success
  | failed
deriving DecidableEq

/-- One instruction dict.  Key normalisation of `_extract_step_command`
(`command`/`cmd`/`run`) and `wait_for` is reflected by typed fields holding the
raw looked-up values. -/
structure Step where
  command : Option String
  wait_for : Option String
  timeout : Option Rat
deriving DecidableEq

/-- `_extract_step_command` (lines 50-58): strip the command text, empty → None. -/
def extractStepCommand (step : Step) : Option String :=
  match step.command with
  | none => none
  | some c =>
    let t := pyStrip c
    if t = "" then none else some t

/-- `_extract_step_wait_for` (lines 61-69). -/
def extractStepWaitFor (step : Step) : Option String :=
  match step.wait_for with
  | none => none
  | some v =>
    let t := pyStrip v
    if t = "" then none else some t

/-- `_extract_step_timeout` (lines 72-84): non-positive or missing → fallback. -/
def extractStepTimeout (step : Step) (fallback : Rat) : Rat :=
  match step.timeout with
  | none => fallback
  | some t => if t ≤ 0 then fallback else t

/-- A recorded step result dict (built in `_run_task`). -/
structure StepResult where
  index : Nat
  command : String
  status : SStatus
  returncode : Option Int
  stdout : Str
  stderr : Str
  duration_s : Rat
  completed_at : Nat
  error : Option Str
  wait_for_target : Option String
  resolved_url : Option String
deriving DecidableEq

/-- Entries of `task_state["steps"]`: either the literal padding placeholder
`{"status": "pending"}` or a full step result. -/
inductive StepEntry
  | placeholderPending
  | result (r : StepResult)
deriving DecidableEq

/-- One task's state dict, with the exact fields created by `start`
(lines 190-204). -/
structure TaskState where
  task_id : String
  status : TStatus
  instructions : List Step
  default_timeout_seconds : Rat
  current_step_index : Nat
  current_step_status : SStatus
  steps : List StepEntry
  created_at : Nat
  started_at : Option Nat
  completed_at : Option Nat
  last_error : Option Str
  cancel_requested : Bool
  state_seq : Nat
deriving DecidableEq

/-- Python `dict` lookup `tasks.get(k)`. -/
def dictGet (k : String) : List (String × TaskState) → Option TaskState
  | [] => none
  | (k', v) :: rest => if k' = k then some v else dictGet k rest

/-- Python `dict` assignment `tasks[k] = v` (update in place, else append). -/
def dictSet (k : String) (v : TaskState) : List (String × TaskState) → List (String × TaskState)
  | [] => [(k, v)]
  | (k', v') :: rest => if k' = k then (k, v) :: rest else (k', v') :: dictSet k v rest

/-- The root state document `self._state` plus a ghost counter recording how many
times `_persist_state` wrote the state file. -/
structure RuntimeState where
  active_task_id : Option String
  tasks : List (String × TaskState)
  updated_at : Option Nat
  persist_count : Nat
deriving DecidableEq

/-- `_persist_state` (lines 141-150): stamps `updated_at` and writes the file
(the write itself is recorded by the ghost counter; its filesystem trace is
modelled separately for the persistence claims). -/
def persistState (st : RuntimeState) (now : Nat) : RuntimeState :=
  { st with updated_at := some now, persist_count := st.persist_count + 1 }

/-- Program counter of the single `_run_task` coroutine between its
lock-protected critical sections. -/
inductive RunnerPC
  | loopHead
  | execShell (stepIdx : Nat) (commandText : String) (timeoutSeconds : Rat)
  | execWaitFor (stepIdx : Nat) (target : String) (timeoutSeconds : Rat)
deriving DecidableEq

/-- The live runner coroutine: which `task_id` it was created for and where it is.
`none` means `self._runner_task` is absent or done. -/
structure RunnerCtl where
  tid : String
  pc : RunnerPC
deriving DecidableEq

/-- Whole-system state: the state document, the runner slot, and
`self._current_process_task_id` for the live subprocess (if any). -/
structure Sys where
  doc : RuntimeState
  runner : Option RunnerCtl
  current_process_tid : Option String
deriving DecidableEq

/-- The freshly-constructed runtime before `_load_state` finds a file
(`__init__`, lines 106-119). -/
def initialSys : Sys :=
  { doc := { active_task_id := none, tasks := [], updated_at := none, persist_count := 0 }
    runner := none
    current_process_tid := none }

/-- Exceptions raised by `start`. -/
inductive StartError
  | valueError (msg : String)
  | conflict (msg : String)
deriving DecidableEq

/-- The conflict test at lines 170-177: a truthy `active_task_id` different from
the requested key whose stored task is running or pending.  Returns the active id
when `start` must raise. -/
def activeConflict (st : RuntimeState) (task_key : String) : Option String :=
  match st.active_task_id with
  | none => none
  | some a =>
    if a = "" then none
    else if a = task_key then none
    else
      match dictGet a st.tasks with
      | some t => if t.status = .running ∨ t.status = .pending then some a else none
      | none => none

/-- `start` (lines 156-212).  Raises on invalid `task_id` or on conflict;
otherwise either bumps and returns the existing task (spawning a runner for a
non-terminal task when the runner slot is free) or creates a fresh pending task.
The `instructions` payload is typed as a list, so the `isinstance(instructions,
list)` guard and the `existing.get("status") in {...}` guard always pass. -/
def startCall (s : Sys) (task_id : String) (instructions : List Step)
    (default_timeout_seconds : Rat) (now : Nat) : Except StartError (Sys × TaskState) :=
  let task_key := pyStrip task_id
  if task_key = "" then .error (.valueError "task_id is required")
  else
    match activeConflict s.doc task_key with
    | some a => .error (.conflict ("Another automation task is active on device: " ++ a))
    | none =>
      match dictGet task_key s.doc.tasks with
      | some existing =>
        let nonterminal := existing.status = .running ∨ existing.status = .pending
        let newActive : Option String := if nonterminal then some task_key else none
        let existing' := { existing with state_seq := existing.state_seq + 1 }
        let doc' := persistState
          { s.doc with active_task_id := newActive, tasks := dictSet task_key existing' s.doc.tasks }
          now
        let runner' :=
          if nonterminal ∧ s.runner = none then some ⟨task_key, RunnerPC.loopHead⟩ else s.runner
        .ok ({ doc := doc', runner := runner', current_process_tid := s.current_process_tid },
          existing')
      | none =>
        let task_state : TaskState :=
          { task_id := task_key
            status := .pending
            instructions := instructions
            default_timeout_seconds := default_timeout_seconds
            current_step_index := 0
            current_step_status := .pending
            steps := []
            created_at := now
            started_at := none
            completed_at := none
            last_error := none
            cancel_requested := false
            state_seq := 1 }
        let doc' := persistState
          { s.doc with
              active_task_id := some task_key
              tasks := dictSet task_key task_state s.doc.tasks }
          now
        let runner' :=
          if s.runner = none then some ⟨task_key, RunnerPC.loopHead⟩ else s.runner
        .ok ({ doc := doc', runner := runner', current_process_tid := s.current_process_tid },
          task_state)

/-- Replies of `cancel`: the literal not-found dict
`{"task_id", "status": "unknown", "message": "task not found"}` or the state
snapshot returned through `get_state`. -/
inductive CancelReply
  | unknownTask (task_id : String) (status : String) (message : String)
  | snapshot (t : TaskState)
deriving DecidableEq

/-- `cancel` (lines 229-258).  Unknown tasks get the not-found reply with no
mutation and no persist; otherwise `cancel_requested` is set, a pending/running
task is flipped to cancelled, `state_seq` is bumped and the document persisted.
Terminating the live subprocess only signals the external process. -/
def cancelCall (s : Sys) (task_id : String) (now : Nat) : Sys × CancelReply :=
  let task_key := pyStrip task_id
  match dictGet task_key s.doc.tasks with
  | none => (s, .unknownTask task_key "unknown" "task not found")
  | some state0 =>
    let state1 := { state0 with cancel_requested := true }
    let state2 :=
      if state1.status = .pending ∨ state1.status = .running then
        { state1 with
            status := .cancelled
            completed_at := some now
            current_step_status := .failed }
      else state1
    let state3 := { state2 with state_seq := state2.state_seq + 1 }
    let doc' := persistState { s.doc with tasks := dictSet task_key state3 s.doc.tasks } now
    ({ doc := doc', runner := s.runner, current_process_tid := s.current_process_tid },
      .snapshot state3)

/-- Python `x or now` on an optional timestamp (`None` and `0` are falsy). -/
def pyOrNat (v : Option Nat) (d : Nat) : Nat :=
  match v with
  | none => d
  | some t => if t = 0 then d else t

/-- Python truthiness of an optional timestamp. -/
def pyTruthyNat (v : Option Nat) : Bool :=
  match v with
  | none => false
  | some t => t ≠ 0

/-- Outcome of the first (pre-exec) critical section of a `_run_task` loop
iteration (lines 286-343). -/
inductive Phase1Out
  | exitRunner
  | continueLoop
  | beginShell (stepIdx : Nat) (commandText : String) (timeoutSeconds : Rat)
  | beginWaitFor (stepIdx : Nat) (target : String) (timeoutSeconds : Rat)
deriving DecidableEq

/-- The shared step-launch mutations at lines 333-343: set `started_at` if unset,
mark the task and step running, bump `state_seq`, persist. -/
def beginStepState (state : TaskState) (now : Nat) : TaskState :=
  { state with
      started_at := if pyTruthyNat state.started_at then state.started_at else some now
      status := .running
      current_step_status := .running
      state_seq := state.state_seq + 1 }

/-- First critical section of a `_run_task` iteration for task `tid`
(lines 286-343).  The `isinstance(instructions, list)` failure branch is
unreachable in the typed model. -/
def runnerPhase1 (st : RuntimeState) (tid : String) (now : Nat) : RuntimeState × Phase1Out :=
  match dictGet tid st.tasks with
  | none => (st, .exitRunner)
  | some state =>
    if state.cancel_requested then
      let s' := { state with
        status := .cancelled
        completed_at := some (pyOrNat state.completed_at now)
        current_step_status := .failed
        state_seq := state.state_seq + 1 }
      (persistState { st with tasks := dictSet tid s' st.tasks, active_task_id := none } now,
        .exitRunner)
    else if state.status = .success ∨ state.status = .failed ∨ state.status = .cancelled then
      (persistState { st with active_task_id := none } now, .exitRunner)
    else
      let instructions := state.instructions
      let step_index := state.current_step_index
      if instructions.length ≤ step_index then
        let s' := { state with
          status := .success
          current_step_status := .success
          completed_at := some now
          state_seq := state.state_seq + 1 }
        (persistState { st with tasks := dictSet tid s' st.tasks, active_task_id := none } now,
          .exitRunner)
      else
        let step := instructions.getD step_index ⟨none, none, none⟩
        match extractStepCommand step, extractStepWaitFor step with
        | none, none =>
          let s' := { state with
            current_step_index := step_index + 1
            current_step_status := .success }
          (persistState { st with tasks := dictSet tid s' st.tasks } now, .continueLoop)
        | cmd?, wait? =>
          let state1 := beginStepState state now
          let st1 := persistState { st with tasks := dictSet tid state1 st.tasks } now
          let default_timeout :=
            if state.default_timeout_seconds = 0 then DEFAULT_STEP_TIMEOUT_SECONDS
            else state.default_timeout_seconds
          match wait? with
          | some target =>
            let timeout := extractStepTimeout step WAIT_FOR_DEFAULT_TIMEOUT_SECONDS
            (st1, .beginWaitFor step_index target timeout)
          | none =>
            match cmd? with
            | some command_text =>
              let timeout := extractStepTimeout step default_timeout
              (st1, .beginShell step_index command_text timeout)
            | none =>
              -- unreachable: the (none, none) case was handled above
              (st1, .continueLoop)

/-- The externally-determined result of executing one step: subprocess exit (or
`_run_wait_for_step` result) together with the captured output. -/
structure ExecOutcome where
  timed_out : Bool
  returncode : Int
  stdout : Str
  stderr : Str
  duration_s : Rat
  resolved_url : Option String
deriving DecidableEq

/-- Pad `steps` with `{"status": "pending"}` placeholders so that `step_index`
is a valid position (lines 565-567), then store the result there. -/
def setStepResult (steps : List StepEntry) (idx : Nat) (r : StepResult) : List StepEntry :=
  (steps ++ List.replicate (idx + 1 - steps.length) StepEntry.placeholderPending).set idx
    (StepEntry.result r)

/-- Outcome of the post-exec critical section: does the runner coroutine
return or loop again? -/
inductive Phase2Out
  | exitRunner
  | continueLoop
deriving DecidableEq

/-- The common state mutations of the post-exec critical section (shell at
lines 561-608, wait-for at lines 385-451): record the step result, then branch
on cancellation, failure, or advance.  `defaultError` is `"command failed"` for
shell steps and `"wait_for failed"` for wait-for steps. -/
def recordStepOutcome (st : RuntimeState) (tid : String) (step_result : StepResult)
    (outcome : ExecOutcome) (defaultError : Str) (now : Nat) : RuntimeState × Phase2Out :=
  match dictGet tid st.tasks with
  | none => (st, .exitRunner)
  | some state =>
    let state1 := { state with steps := setStepResult state.steps step_result.index step_result }
    if state1.cancel_requested then
      let s' := { state1 with
        status := .cancelled
        current_step_status := .failed
        completed_at := some now
        state_seq := state1.state_seq + 1 }
      (persistState { st with tasks := dictSet tid s' st.tasks, active_task_id := none } now,
        .exitRunner)
    else if outcome.timed_out ∨ outcome.returncode ≠ 0 then
      let s' := { state1 with
        status := .failed
        current_step_status := .failed
        completed_at := some now
        last_error := some (pyOrS (pyOrS ((step_result.error).getD []) step_result.stderr)
          defaultError)
        state_seq := state1.state_seq + 1 }
      (persistState { st with tasks := dictSet tid s' st.tasks, active_task_id := none } now,
        .exitRunner)
    else
      let s' := { state1 with
        current_step_index := step_result.index + 1
        current_step_status := .pending
        state_seq := state1.state_seq + 1 }
      (persistState { st with tasks := dictSet tid s' st.tasks } now, .continueLoop)

/-- The step-result dict built for a shell step (lines 569-581). -/
def shellStepResult (step_index : Nat) (command_text : String) (timeoutSeconds : Rat)
    (outcome : ExecOutcome) (now : Nat) : StepResult :=
  { index := step_index
    command := command_text
    status := if outcome.timed_out ∨ outcome.returncode ≠ 0 then .failed else .success
    returncode := some outcome.returncode
    stdout := trimText outcome.stdout MAX_STDIO_CHARS
    stderr := trimText outcome.stderr MAX_STDIO_CHARS
    duration_s := outcome.duration_s
    completed_at := now
    error := if outcome.timed_out then
        some (strL ("step timed out after " ++ toString timeoutSeconds ++ "s"))
      else none
    wait_for_target := none
    resolved_url := none }

/-- The step-result dict built for a wait-for step (lines 393-407); the command
label is `f"wait_for {target}"`. -/
def waitForStepResult (step_index : Nat) (target : String) (timeoutSeconds : Rat)
    (outcome : ExecOutcome) (now : Nat) : StepResult :=
  { index := step_index
    command := "wait_for " ++ target
    status := if outcome.timed_out ∨ outcome.returncode ≠ 0 then .failed else .success
    returncode := some outcome.returncode
    stdout := trimText outcome.stdout MAX_STDIO_CHARS
    stderr := trimText outcome.stderr MAX_STDIO_CHARS
    duration_s := outcome.duration_s
    completed_at := now
    error := if outcome.timed_out then
        some (strL ("step timed out after " ++ toString timeoutSeconds ++ "s"))
      else none
    wait_for_target := some target
    resolved_url := outcome.resolved_url }

/-- Apply the first critical section at the system level: only meaningful when
the runner coroutine sits at its loop head.  A shell step sets
`self._current_process` bookkeeping (lines 459-460); a wait-for step does not. -/
def sysPhase1 (s : Sys) (now : Nat) : Sys :=
  match s.runner with
  | some ctl =>
    match ctl.pc with
    | .loopHead =>
      let (doc', out) := runnerPhase1 s.doc ctl.tid now
      match out with
      | .exitRunner => { doc := doc', runner := none, current_process_tid := s.current_process_tid }
      | .continueLoop =>
        { doc := doc', runner := some ctl, current_process_tid := s.current_process_tid }
      | .beginShell i c tmo =>
        { doc := doc', runner := some ⟨ctl.tid, RunnerPC.execShell i c tmo⟩,
          current_process_tid := some ctl.tid }
      | .beginWaitFor i tgt tmo =>
        { doc := doc', runner := some ⟨ctl.tid, RunnerPC.execWaitFor i tgt tmo⟩,
          current_process_tid := s.current_process_tid }
    | _ => s
  | none => s

/-- Apply the post-exec critical section at the system level.  The `finally`
block of the shell path clears the process bookkeeping (lines 533-537). -/
def sysPhase2 (s : Sys) (outcome : ExecOutcome) (now : Nat) : Sys :=
  match s.runner with
  | some ctl =>
    match ctl.pc with
    | .execShell i c tmo =>
      let (doc', out) := recordStepOutcome s.doc ctl.tid
        (shellStepResult i c tmo outcome now) outcome (strL "command failed") now
      { doc := doc'
        runner := if out = .exitRunner then none else some ⟨ctl.tid, RunnerPC.loopHead⟩
        current_process_tid := none }
    | .execWaitFor i tgt tmo =>
      let (doc', out) := recordStepOutcome s.doc ctl.tid
        (waitForStepResult i tgt tmo outcome now) outcome (strL "wait_for failed") now
      { doc := doc'
        runner := if out = .exitRunner then none else some ⟨ctl.tid, RunnerPC.loopHead⟩
        current_process_tid := s.current_process_tid }
    | .loopHead => s
  | none => s

/-- Observable atomic events of the system: command handlers (which the event
loop may run between any two runner critical sections) and the runner's own
critical sections. -/
inductive Label
  | cmdStart (task_id : String) (instructions : List Step) (timeout : Rat) (now : Nat)
  | cmdCancel (task_id : String) (now : Nat)
  | runnerStep1 (now : Nat)
  | runnerStep2 (outcome : ExecOutcome) (now : Nat)

/-- One atomic transition.  A command that raises leaves the state unchanged. -/
def sysStep (s : Sys) : Label → Sys
  | .cmdStart tid instr tmo now =>
    match startCall s tid instr tmo now with
    | .ok (s', _) => s'
    | .error _ => s
  | .cmdCancel tid now => (cancelCall s tid now).1
  | .runnerStep1 now => sysPhase1 s now
  | .runnerStep2 outcome now => sysPhase2 s outcome now

/-- Run a trace of labels. -/
def sysRun (s : Sys) : List Label → Sys
  | [] => s
  | l :: ls => sysRun (sysStep s l) ls

/-! ## Startup (`__init__` / `_load_state`) -/

/-- A successfully parsed persisted state file: the payload dict with its
`tasks` value (which `_load_state` replaces by `{}` when it is not a dict). -/
structure PersistedDoc where
  active_task_id : Option String
  tasks : Option (List (String × TaskState))
  updated_at : Option Nat
deriving DecidableEq

/-- `_load_state` (lines 124-139): a missing, unreadable or non-dict file keeps
the defaults; otherwise the three fields are loaded verbatim. -/
def loadState (file : Option PersistedDoc) : RuntimeState :=
  match file with
  | none => { active_task_id := none, tasks := [], updated_at := none, persist_count := 0 }
  | some payload =>
    { active_task_id := payload.active_task_id
      tasks := payload.tasks.getD []
      updated_at := payload.updated_at
      persist_count := 0 }

/-- `__init__` (lines 106-119): load the persisted document; the runner slot
(`self._runner_task`) and process bookkeeping start empty. -/
def initRuntime (file : Option PersistedDoc) : Sys :=
  { doc := loadState file, runner := none, current_process_tid := none }

/-! ## Connection supervisor (`client.py`, `exit_codes.py`, `restart.py`) -/

/-- The Python exception classes relevant to `ConnectionManager._runner`'s
`except (OSError, websockets.WebSocketException)` clause. -/
inductive PyExc
  | osError (msg : String)
  | webSocketException (msg : String)
  | runtimeError (msg : String)
deriving DecidableEq

/-- exit_codes.py line 6: documented as the exit code of a process whose device
authentication was rejected by the gateway. -/
def AUTH_REJECTED_EXIT_CODE : Nat := 86

/-- restart.py line 18. -/
def RESTART_EXIT_CODE : Nat := 42

/-- `_authenticate` (client.py lines 70-81): any reply other than the exact
marker `"ok"` raises `RuntimeError(f"Gateway rejected authentication: {response}")`. -/
def authenticate (response : String) : Except PyExc Unit :=
  if response = "ok" then .ok ()
  else .error (.runtimeError ("Gateway rejected authentication: " ++ response))

/-- Which exceptions the `except` clause of `_runner` (lines 63-64) catches. -/
def runnerCatches : PyExc → Bool
  | .osError _ => true
  | .webSocketException _ => true
  | .runtimeError _ => false

/-- How one `_runner` loop iteration ends.  `retryAfter d` models the caught
branch: log, sleep `self.reconnect_delay` seconds, loop again.
`propagateException e` models an uncaught exception escaping the `while` loop:
the connection asyncio task finishes with that exception.  `client.py` contains
no `sys.exit` call and never references `AUTH_REJECTED_EXIT_CODE`, so the model
has no exit-code outcome at all. -/
inductive SessionEnd
  | retryAfter (delaySeconds : Rat)
  | propagateException (e : PyExc)
deriving DecidableEq

/-- One iteration of `_runner` (lines 55-68) given how the connect/authenticate/
listen body ended.  The `finally` block's sleep applies to both branches. -/
def runnerIteration (reconnectDelay : Rat) (body : Except PyExc Unit) : SessionEnd :=
  match body with
  | .ok () => .retryAfter reconnectDelay
  | .error e => if runnerCatches e then .retryAfter reconnectDelay else .propagateException e

/-- A session that dialled successfully and received `reply` to the
authentication frame. -/
def runnerIterationOnAuthReply (reconnectDelay : Rat) (reply : String) : SessionEnd :=
  runnerIteration reconnectDelay (authenticate reply)

/-! ## Persisted-file write traces

Filesystem side effects of the three persisted-file writers named by the spec,
in program order. -/

/-- An individual filesystem operation performed by a writer. -/
inductive FsOp
  | mkdirParents
  | writeTmp
  | flushTmp
  | fsyncTmp
  | renameTmpToFinal
  | chmodFinal
  | writeFinalInPlace
  | installTmpToFinal
  | copyTmpToFinal
  | unlinkTmp
deriving DecidableEq

/-- `_AutomationRuntimeV2._persist_state` (automation_v2_handlers.py lines
141-150): mkdir, write temp, flush, fsync, `os.replace`; no chmod. -/
def persistStateTrace : List FsOp :=
  [.mkdirParents, .writeTmp, .flushTmp, .fsyncTmp, .renameTmpToFinal]

/-- `persist_forwarding_state` (forwarding_state.py lines 30-37): mkdir, write
temp, `os.replace`, chmod 0600; no flush/fsync. -/
def persistForwardingStateTrace : List FsOp :=
  [.mkdirParents, .writeTmp, .renameTmpToFinal, .chmodFinal]

/-- `privileged.write_text` (privileged.py lines 80-108).  When the direct write
is permitted it writes the final path in place and chmods it; on
`PermissionError` it writes a named temporary file and installs (or copies and
chmods) it over the final path, then unlinks the temp file. -/
def writeTextTrace (directWritePermitted : Bool) (haveInstall : Bool) : List FsOp :=
  if directWritePermitted then
    [.mkdirParents, .writeFinalInPlace, .chmodFinal]
  else if haveInstall then
    [.mkdirParents, .writeTmp, .flushTmp, .installTmpToFinal, .unlinkTmp]
  else
    [.mkdirParents, .writeTmp, .flushTmp, .copyTmpToFinal, .chmodFinal, .unlinkTmp]

/-- The four core steps the claim requires of every persisted-file write. -/
def isCoreWriteOp (op : FsOp) : Bool :=
  op = .writeTmp || op = .fsyncTmp || op = .renameTmpToFinal || op = .chmodFinal

/-- The claimed protocol: the core steps occur exactly in the order
temp-write → fsync → rename → chmod, and the final path is never written or
copied onto in place. -/
def followsAtomicWriteProtocol (t : List FsOp) : Prop :=
  t.filter isCoreWriteOp = [.writeTmp, .fsyncTmp, .renameTmpToFinal, .chmodFinal]
    ∧ FsOp.writeFinalInPlace ∉ t ∧ FsOp.installTmpToFinal ∉ t ∧ FsOp.copyTmpToFinal ∉ t

instance (t : List FsOp) : Decidable (followsAtomicWriteProtocol t) := by
  unfold followsAtomicWriteProtocol; infer_instance

/-! ## `configure_proxmox_container_expose_ports`
(`cloudflare_forwarding.py` lines 772-816) -/

/-- A desired forwarding rule `{"subdomain": ..., "port": ...}`. -/
structure ExposeRule where
  subdomain : String
  port : Int
deriving DecidableEq

/-- Python `str.isdigit()` restricted to ASCII digits. -/
def pyIsDigit (s : String) : Bool :=
  s.toList ≠ [] && s.toList.all Char.isDigit

/-- The validation loop of lines 783-795: range-check each port and skip
duplicates, accumulating in reverse.  Entries arrive as integers, so the
`int(str(raw).strip())` conversion cannot fail in the typed model. -/
def normalizePortsAux : List Int → List Int → Except String (List Int)
  | [], acc => .ok acc.reverse
  | p :: rest, acc =>
    if p < 1 ∨ p > 65535 then .error "expose_ports entries must be between 1 and 65535"
    else if p ∈ acc then normalizePortsAux rest acc
    else normalizePortsAux rest (p :: acc)

/-- `ConfigureProxmoxContainerExposePortsHandler.execute` up to the point where
`set_container_forwarding_rules` is called (lines 772-805): validation,
deduplication, the maximum-3 check, and the subdomain naming scheme.  An
`.error` return models a raised `ValueError`, in which case no forwarding rules
are touched (the only mutation happens after this point, on the `.ok` value). -/
def configureExposePorts (child_device_id : String) (expose_ports : Option (List Int)) :
    Except String (List ExposeRule) :=
  let cid := pyStrip child_device_id
  if cid = "" ∨ ¬ pyIsDigit cid then .error "child_device_id is required"
  else
    let raw_ports := expose_ports.getD []
    match normalizePortsAux raw_ports [] with
    | .error e => .error e
    | .ok normalized_ports =>
      if 3 < normalized_ports.length then .error "A maximum of 3 ports can be exposed"
      else
        .ok (normalized_ports.enum.map (fun ip =>
          { subdomain := if ip.1 = 0 then cid else toString ip.1 ++ "_" ++ cid
            port := ip.2 }))

/-- The distinct ports of a request in first-occurrence order (specification
device used to state the amended claim). -/
def distinctPorts (l : List Int) : List Int :=
  l.foldl (fun acc p => if p ∈ acc then acc else acc ++ [p]) []

/-! ## Exposed-services environment injection (`cloudflare_forwarding.py`)

`_merge_system_environment` rewrites `/etc/environment`;
`_strip_managed_block` / `_upsert_managed_shell_hook` maintain the managed
block in global shell rc files. -/

/-- A task counts as active (`status ∈ {pending, running}`). -/
def isPR (t : TaskState) : Prop :=
  t.status = .pending ∨ t.status = .running

instance (t : TaskState) : Decidable (isPR t) := by
  unfold isPR; infer_instance

/-- The claimed global invariant: at most one stored task is pending/running. -/
def atMostOneActiveTask (tasks : List (String × TaskState)) : Prop :=
  ∀ e1 ∈ tasks, ∀ e2 ∈ tasks, isPR e1.2 → isPR e2.2 → e1.1 = e2.1

instance (tasks : List (String × TaskState)) : Decidable (atMostOneActiveTask tasks) := by
  unfold atMostOneActiveTask; infer_instance

/-- The inductive strengthening the runtime actually maintains while runner
steps stay aligned with `active_task_id`: task keys are duplicate-free and
every pending/running task is the (nonempty-keyed) active one. -/
def Inv (st : RuntimeState) : Prop :=
  (st.tasks.map Prod.fst).Nodup ∧
    ∀ e ∈ st.tasks, isPR e.2 → st.active_task_id = some e.1 ∧ e.1 ≠ ""

instance (st : RuntimeState) : Decidable (Inv st) := by
  unfold Inv; infer_instance

/-- A one-step shell instruction (used by the concrete traces below). -/
def stepSleep30 : Step :=
  { command := some "sleep 30", wait_for := none, timeout := none }

/-- The interleaving that breaks the at-most-one-active-task claim: start `t1`;
cancel it (which leaves `active_task_id = "t1"`); start `t2` (no conflict, the
stale runner slot is still occupied so no runner is spawned for `t2`); the stale
`t1` runner then observes `cancel_requested` and clears `active_task_id`;
starting `t3` now succeeds although `t2` is still pending. -/
def c2Trace : List Label :=
  [ .cmdStart "t1" [stepSleep30] 5 100
  , .cmdCancel "t1" 101
  , .cmdStart "t2" [stepSleep30] 5 102
  , .runnerStep1 103
  , .cmdStart "t3" [stepSleep30] 5 104 ]

/-- A persisted pending task, resumable at step index 2. -/
def c1Task : TaskState :=
  { task_id := "T"
    status := .pending
    instructions := [stepSleep30, stepSleep30, stepSleep30]
    default_timeout_seconds := 7200
    current_step_index := 2
    current_step_status := .pending
    steps := []
    created_at := 10
    started_at := some 11
    completed_at := none
    last_error := none
    cancel_requested := false
    state_seq := 7 }

/-- A persisted state file whose active task `T` is pending. -/
def c1Doc : PersistedDoc :=
  { active_task_id := some "T"
    tasks := some [("T", c1Task)]
    updated_at := some 12 }

/-- A terminal (successful) task used by the cancel frame-condition witness. -/
def doneTask : TaskState :=
  { task_id := "a"
    status := .success
    instructions := []
    default_timeout_seconds := 7200
    current_step_index := 1
    current_step_status := .success
    steps := []
    created_at := 1
    started_at := some 2
    completed_at := some 3
    last_error := none
    cancel_requested := false
    state_seq := 4 }

/-- A system holding only the terminal task `doneTask`. -/
def doneSys : Sys :=
  { doc :=
      { active_task_id := none
        tasks := [("a", doneTask)]
        updated_at := some 3
        persist_count := 2 }
    runner := none
    current_process_tid := none }

/-- The pending task created by `start("t1", [stepSleep30], 5)` at time 100. -/
def pendingT1Task : TaskState :=
  { task_id := "t1"
    status := .pending
    instructions := [stepSleep30]
    default_timeout_seconds := 5
    current_step_index := 0
    current_step_status := .pending
    steps := []
    created_at := 100
    started_at := none
    completed_at := none
    last_error := none
    cancel_requested := false
    state_seq := 1 }

/-- A system with one pending task `t1` whose runner sits at its loop head
(the state right after `start("t1", ...)` on a fresh runtime). -/
def pendingT1Sys : Sys :=
  { doc :=
      { active_task_id := some "t1"
        tasks := [("t1", pendingT1Task)]
        updated_at := some 100
        persist_count := 1 }
    runner := some ⟨"t1", RunnerPC.loopHead⟩
    current_process_tid := none }

/-! ## Helper lemmas about the task dictionary -/

theorem dictGet_mem {k : String} {v : TaskState} :
    ∀ {l : List (String × TaskState)}, dictGet k l = some v → (k, v) ∈ l
  | [], h => by simp [dictGet] at h
  | (k', v') :: rest, h => by
    by_cases hk : k' = k
    · subst hk
      simp [dictGet] at h
      simp [h]
    · simp [dictGet, hk] at h
      exact List.mem_cons_of_mem _ (dictGet_mem h)

theorem mem_nodup_dictGet {k : String} {v : TaskState} :
    ∀ {l : List (String × TaskState)}, (l.map Prod.fst).Nodup → (k, v) ∈ l →
      dictGet k l = some v
  | [], _, hm => by simp at hm
  | (k', v') :: rest, hnd, hm => by
    simp only [List.map_cons, List.nodup_cons] at hnd
    rcases List.mem_cons.mp hm with h | h
    · cases h
      simp [dictGet]
    · have hk : k' ≠ k := by
        intro hkk
        subst hkk
        exact hnd.1 (List.mem_map.mpr ⟨(k', v), h, rfl⟩)
      simp [dictGet, hk]
      exact mem_nodup_dictGet hnd.2 h

theorem dictGet_none_not_mem {k : String} {v : TaskState} :
    ∀ {l : List (String × TaskState)}, dictGet k l = none → (k, v) ∉ l
  | [], _, hm => by simp at hm
  | (k', v') :: rest, h, hm => by
    by_cases hk : k' = k
    · subst hk; simp [dictGet] at h
    · simp [dictGet, hk] at h
      rcases List.mem_cons.mp hm with hh | hh
      · exact hk (congrArg Prod.fst hh).symm
      · exact dictGet_none_not_mem h hh

theorem dictGet_dictSet_self {k : String} {v : TaskState} :
    ∀ (l : List (String × TaskState)), dictGet k (dictSet k v l) = some v
  | [] => by simp [dictGet, dictSet]
  | (k', v') :: rest => by
    by_cases hk : k' = k
    · subst hk; simp [dictGet, dictSet]
    · simp [dictGet, dictSet, hk, dictGet_dictSet_self rest]

theorem dictGet_dictSet_ne {k k' : String} {v : TaskState} (h : k' ≠ k) :
    ∀ (l : List (String × TaskState)), dictGet k' (dictSet k v l) = dictGet k' l
  | [] => by
    have hkk : ¬ (k = k') := fun hh => h hh.symm
    simp [dictGet, dictSet, hkk]
  | (k'', v'') :: rest => by
    have hkk : ¬ (k = k') := fun hh => h hh.symm
    by_cases hk : k'' = k
    · subst hk
      simp [dictGet, dictSet, hkk]
    · simp only [dictSet, if_neg hk]
      by_cases hk' : k'' = k'
      · subst hk'; simp [dictGet]
      · simp [dictGet, hk', dictGet_dictSet_ne h rest]

theorem mem_dictSet_strong {k : String} {v : TaskState} {e : String × TaskState} :
    ∀ {l : List (String × TaskState)}, (l.map Prod.fst).Nodup → e ∈ dictSet k v l →
      e = (k, v) ∨ (e ∈ l ∧ e.1 ≠ k)
  | [], _, hm => by
    simp [dictSet] at hm
    exact Or.inl hm
  | (k', v') :: rest, hnd, hm => by
    simp only [List.map_cons, List.nodup_cons] at hnd
    by_cases hk : k' = k
    · subst hk
      simp only [dictSet, if_pos rfl] at hm
      rcases List.mem_cons.mp hm with h | h
      · exact Or.inl h
      · refine Or.inr ⟨List.mem_cons_of_mem _ h, ?_⟩
        intro hek
        exact hnd.1 (List.mem_map.mpr ⟨e, h, hek⟩)
    · simp only [dictSet, if_neg hk] at hm
      rcases List.mem_cons.mp hm with h | h
      · subst h
        exact Or.inr ⟨List.mem_cons_self _ _, hk⟩
      · rcases mem_dictSet_strong hnd.2 h with h' | h'
        · exact Or.inl h'
        · exact Or.inr ⟨List.mem_cons_of_mem _ h'.1, h'.2⟩

theorem dictSet_map_fst {k : String} {v : TaskState} :
    ∀ (l : List (String × TaskState)),
      (dictSet k v l).map Prod.fst =
        if k ∈ l.map Prod.fst then l.map Prod.fst else l.map Prod.fst ++ [k]
  | [] => by simp [dictSet]
  | (k', v') :: rest => by
    by_cases hk : k' = k
    · subst hk; simp [dictSet]
    · have hkk : ¬ (k = k') := fun h => hk h.symm
      simp only [dictSet, if_neg hk, List.map_cons, dictSet_map_fst rest]
      by_cases hmem : k ∈ rest.map Prod.fst
      · simp [hmem, hkk]
      · simp [hmem, hkk]

theorem dictSet_nodup {k : String} {v : TaskState} {l : List (String × TaskState)}
    (h : (l.map Prod.fst).Nodup) : ((dictSet k v l).map Prod.fst).Nodup := by
  rw [dictSet_map_fst]
  by_cases hmem : k ∈ l.map Prod.fst
  · simpa [hmem]
  · simp only [if_neg hmem]
    exact List.Nodup.append h (List.nodup_singleton k) (by simpa using hmem)

theorem truncationSuffix_length : (truncationSuffix MAX_STDIO_CHARS).length = 29 := by
  decide

/-! ## Claim theorems -/

/-- C8: a captured stdout/stderr text of at most 8000 characters is stored by
`_trim_text` unchanged; a longer text is cut to exactly 8000 characters ending
in the truncation marker suffix. -/
theorem c8_trim_text_cap (text : Str) :
    (text.length ≤ MAX_STDIO_CHARS → trimText text MAX_STDIO_CHARS = text) ∧
    (MAX_STDIO_CHARS < text.length →
      (trimText text MAX_STDIO_CHARS).length = MAX_STDIO_CHARS ∧
      truncationSuffix MAX_STDIO_CHARS <:+ trimText text MAX_STDIO_CHARS) := by
  constructor
  · intro h
    simp [trimText, h]
  · intro h
    have hnle : ¬ text.length ≤ MAX_STDIO_CHARS := by omega
    refine ⟨?_, ?_⟩
    · simp only [trimText, if_neg hnle, List.length_append, List.length_take,
        truncationSuffix_length]
      have hmax : MAX_STDIO_CHARS = 8000 := rfl
      omega
    · simp only [trimText, if_neg hnle]
      exact List.suffix_append _ _

/-- Witness for C8 at a concrete 8001-character text. -/
theorem c8_trim_text_cap_witness :
    (trimText (List.replicate 8001 'a') MAX_STDIO_CHARS).length = MAX_STDIO_CHARS ∧
    truncationSuffix MAX_STDIO_CHARS <:+ trimText (List.replicate 8001 'a') MAX_STDIO_CHARS :=
  (c8_trim_text_cap (List.replicate 8001 'a')).2 (by rw [List.length_replicate]; decide)

/-- C10: cancelling an unknown `task_id` returns the literal
`{"task_id", "status": "unknown", "message": "task not found"}` record and
leaves the whole system state (tasks, `active_task_id`, `state_seq`s,
`updated_at`, persist counter, runner, process bookkeeping) untouched. -/
theorem c10_cancel_unknown (s : Sys) (task_id : String) (now : Nat)
    (h : dictGet (pyStrip task_id) s.doc.tasks = none) :
    cancelCall s task_id now =
      (s, .unknownTask (pyStrip task_id) "unknown" "task not found") := by
  unfold cancelCall
  simp [h]

/-- Witness for C10 on the fresh runtime. -/
theorem c10_cancel_unknown_witness :
    cancelCall initialSys "zz" 3 =
      (initialSys, .unknownTask "zz" "unknown" "task not found") := by
  have h := c10_cancel_unknown initialSys "zz" 3 rfl
  exact h

/-- C6: cancelling a terminal task only sets `cancel_requested` and bumps
`state_seq`; its status and every other field survive, other tasks and the
active id are untouched (the document is re-persisted, stamping `updated_at`). -/
theorem c6_cancel_terminal_frame (s : Sys) (task_id : String) (now : Nat) (t : TaskState)
    (hget : dictGet (pyStrip task_id) s.doc.tasks = some t)
    (hterm : t.status = .success ∨ t.status = .failed ∨ t.status = .cancelled) :
    cancelCall s task_id now =
      ({ doc := { s.doc with
            tasks := dictSet (pyStrip task_id)
              { t with cancel_requested := true, state_seq := t.state_seq + 1 } s.doc.tasks
            updated_at := some now
            persist_count := s.doc.persist_count + 1 }
         runner := s.runner
         current_process_tid := s.current_process_tid },
        .snapshot { t with cancel_requested := true, state_seq := t.state_seq + 1 }) ∧
    ∀ k, k ≠ pyStrip task_id →
      dictGet k (cancelCall s task_id now).1.doc.tasks = dictGet k s.doc.tasks := by
  have hnpr : ¬ ({ t with cancel_requested := true } : TaskState).status = TStatus.pending ∧
      ¬ ({ t with cancel_requested := true } : TaskState).status = TStatus.running := by
    rcases hterm with h | h | h <;> simp [h]
  have hmain : cancelCall s task_id now =
      ({ doc := { s.doc with
            tasks := dictSet (pyStrip task_id)
              { t with cancel_requested := true, state_seq := t.state_seq + 1 } s.doc.tasks
            updated_at := some now
            persist_count := s.doc.persist_count + 1 }
         runner := s.runner
         current_process_tid := s.current_process_tid },
        .snapshot { t with cancel_requested := true, state_seq := t.state_seq + 1 }) := by
    unfold cancelCall
    simp only [hget]
    rw [if_neg (by simp [hnpr.1, hnpr.2])]
    simp [persistState]
  refine ⟨hmain, ?_⟩
  intro k hk
  rw [hmain]
  exact dictGet_dictSet_ne hk _

/-- Witness for C6 on a concrete terminal task. -/
theorem c6_cancel_terminal_frame_witness :
    (cancelCall doneSys "a" 9).2 =
      CancelReply.snapshot { doneTask with cancel_requested := true, state_seq := 5 } := by
  have h := c6_cancel_terminal_frame doneSys "a" 9 doneTask rfl (Or.inl rfl)
  rw [h.1]
  rfl

/-- C4 counterexample: none of the three persisted-file writers follows the
claimed `write(tmp) → fsync → rename → chmod` discipline, and `write_text`
mutates the final file in place when the direct write is permitted. -/
theorem c4_counterexample :
    ¬ followsAtomicWriteProtocol persistStateTrace ∧
    ¬ followsAtomicWriteProtocol persistForwardingStateTrace ∧
    ¬ followsAtomicWriteProtocol (writeTextTrace true true) ∧
    FsOp.writeFinalInPlace ∈ writeTextTrace true true := by
  decide

/-- C4 amended: `_persist_state` does `write(tmp) → fsync → rename` with no
chmod; `persist_forwarding_state` does `write(tmp) → rename → chmod` with no
fsync; `write_text` either writes the final path in place (then chmods) or
installs/copies a temp file over it — it never fsyncs or renames. -/
theorem c4_amended :
    persistStateTrace.filter isCoreWriteOp =
      [.writeTmp, .fsyncTmp, .renameTmpToFinal] ∧
    FsOp.chmodFinal ∉ persistStateTrace ∧
    FsOp.writeFinalInPlace ∉ persistStateTrace ∧
    persistForwardingStateTrace.filter isCoreWriteOp =
      [.writeTmp, .renameTmpToFinal, .chmodFinal] ∧
    FsOp.fsyncTmp ∉ persistForwardingStateTrace ∧
    FsOp.writeFinalInPlace ∉ persistForwardingStateTrace ∧
    (∀ hi : Bool, FsOp.writeFinalInPlace ∈ writeTextTrace true hi) ∧
    (∀ dw hi : Bool, FsOp.fsyncTmp ∉ writeTextTrace dw hi ∧
      FsOp.renameTmpToFinal ∉ writeTextTrace dw hi) := by
  decide

/-- C3: a gateway authentication reply other than `"ok"` makes the session body
raise `RuntimeError`, which the supervisor loop does not catch — the connection
task dies with the exception instead of the process exiting with
`AUTH_REJECTED_EXIT_CODE` (86), which nothing in the client references; caught
transport errors (`OSError`, `WebSocketException`) retry after the constant
reconnect delay. -/
theorem c3_auth_rejection_behavior :
    runnerIterationOnAuthReply 5 "denied" =
      .propagateException (.runtimeError "Gateway rejected authentication: denied") ∧
    AUTH_REJECTED_EXIT_CODE = 86 ∧
    (∀ d : Rat, ∀ m : String, runnerIteration d (.error (.osError m)) = .retryAfter d) ∧
    (∀ d : Rat, ∀ m : String,
      runnerIteration d (.error (.webSocketException m)) = .retryAfter d) ∧
    (∀ d : Rat, ∀ r : String, r ≠ "ok" →
      runnerIterationOnAuthReply d r =
        .propagateException (.runtimeError ("Gateway rejected authentication: " ++ r))) := by
  refine ⟨by decide, rfl, fun d m => rfl, fun d m => rfl, fun d r hr => ?_⟩
  unfold runnerIterationOnAuthReply runnerIteration authenticate
  simp [hr, runnerCatches]

/-- Witness for C3's general auth-rejection conjunct at the reply `"denied"`. -/
theorem c3_auth_rejection_behavior_witness :
    ("denied" : String) ≠ "ok" ∧
    runnerIterationOnAuthReply 3 "denied" =
      .propagateException (.runtimeError "Gateway rejected authentication: denied") :=
  ⟨by decide, c3_auth_rejection_behavior.2.2.2.2 3 "denied" (by decide)⟩

/-- C7 counterexample: a request whose `expose_ports` list has four entries but
only one distinct port passes validation and applies a rule — the length-3 cap
is checked only after duplicates are dropped. -/
theorem c7_counterexample :
    3 < ([80, 80, 80, 80] : List Int).length ∧
    configureExposePorts "7" (some [80, 80, 80, 80]) =
      .ok [{ subdomain := "7", port := 80 }] := by
  decide

theorem normalizePortsAux_ok (l : List Int) (hrange : ∀ p ∈ l, 1 ≤ p ∧ p ≤ 65535) :
    ∀ acc : List Int, normalizePortsAux l acc =
      .ok ((l.foldl (fun a p => if p ∈ a then a else p :: a) acc).reverse) := by
  induction l with
  | nil => intro acc; rfl
  | cons p rest ih =>
    intro acc
    have hp := hrange p (List.mem_cons_self _ _)
    have hrest : ∀ q ∈ rest, 1 ≤ q ∧ q ≤ 65535 :=
      fun q hq => hrange q (List.mem_cons_of_mem _ hq)
    have hnot : ¬ (p < 1 ∨ p > 65535) := by omega
    simp only [normalizePortsAux, if_neg hnot, List.foldl_cons]
    by_cases hmem : p ∈ acc
    · simp only [if_pos hmem]
      exact ih hrest acc
    · simp only [if_neg hmem]
      exact ih hrest (p :: acc)

theorem foldl_dedup_reverse (l : List Int) :
    ∀ acc : List Int,
      (l.foldl (fun a p => if p ∈ a then a else p :: a) acc).reverse =
        l.foldl (fun a p => if p ∈ a then a else a ++ [p]) acc.reverse := by
  induction l with
  | nil => intro acc; rfl
  | cons p rest ih =>
    intro acc
    simp only [List.foldl_cons]
    by_cases hmem : p ∈ acc
    · rw [if_pos hmem, if_pos (List.mem_reverse.mpr hmem), ih]
    · rw [if_neg hmem, if_neg (fun h => hmem (List.mem_reverse.mp h)), ih]
      simp

/-- C7 amended: for valid inputs the operation raises the `ValueError`
`"A maximum of 3 ports can be exposed"` exactly when more than three distinct
ports remain after duplicates are dropped; otherwise it succeeds and applies
one rule per distinct port (so a raw list longer than three with at most three
distinct ports is accepted).  A raised error precedes any rule mutation. -/
theorem c7_amended (child_device_id : String) (ports : List Int)
    (hcid1 : pyStrip child_device_id ≠ "")
    (hcid2 : pyIsDigit (pyStrip child_device_id) = true)
    (hrange : ∀ p ∈ ports, 1 ≤ p ∧ p ≤ 65535) :
    (3 < (distinctPorts ports).length →
      configureExposePorts child_device_id (some ports) =
        .error "A maximum of 3 ports can be exposed") ∧
    ((distinctPorts ports).length ≤ 3 →
      ∃ rules, configureExposePorts child_device_id (some ports) = .ok rules ∧
        rules.length = (distinctPorts ports).length ∧
        rules.map ExposeRule.port = distinctPorts ports) := by
  have hnorm : normalizePortsAux ports [] = .ok (distinctPorts ports) := by
    rw [normalizePortsAux_ok ports hrange []]
    congr 1
    rw [foldl_dedup_reverse]
    rfl
  have hguard : ¬ (pyStrip child_device_id = "" ∨ ¬ pyIsDigit (pyStrip child_device_id)) := by
    simp [hcid1, hcid2]
  constructor
  · intro hlen
    unfold configureExposePorts
    simp only [if_neg hguard, Option.getD_some, hnorm, if_pos hlen]
  · intro hlen
    unfold configureExposePorts
    simp only [if_neg hguard, Option.getD_some, hnorm, if_neg (by omega : ¬ 3 < (distinctPorts ports).length)]
    refine ⟨_, rfl, ?_, ?_⟩
    · simp [List.enum_length]
    · simp only [List.map_map]
      have : (ExposeRule.port ∘ fun ip : Nat × Int =>
          ({ subdomain := if ip.1 = 0 then pyStrip child_device_id
              else toString ip.1 ++ "_" ++ pyStrip child_device_id
             port := ip.2 } : ExposeRule)) = Prod.snd := by
        funext ip; rfl
      rw [this, List.enum_map_snd]

/-- Witness for C7's amended statement: four raw entries, one distinct port. -/
theorem c7_amended_witness :
    ∃ rules, configureExposePorts "7" (some [80, 80, 80, 80]) = .ok rules ∧
      rules.length = (distinctPorts [80, 80, 80, 80]).length ∧
      rules.map ExposeRule.port = distinctPorts [80, 80, 80, 80] :=
  (c7_amended "7" [80, 80, 80, 80] (by decide) (by decide) (by decide)).2 (by decide)

/-- C1 counterexample: constructing the runtime from a persisted file whose
active task `T` is pending loads the task but spawns no runner
(`self._runner_task` stays empty until a further command arrives). -/
theorem c1_counterexample :
    c1Task.status = .pending ∧
    c1Doc.active_task_id = some c1Task.task_id ∧
    dictGet "T" (initRuntime (some c1Doc)).doc.tasks = some c1Task ∧
    (initRuntime (some c1Doc)).runner = none := by
  decide

/-- C1 amended: startup loads the persisted document verbatim but spawns no
runner; the non-terminal active task `T` resumes — keeping its persisted
`current_step_index` — only when the next `start(T, ...)` command arrives,
which spawns the runner. -/
theorem c1_amended (file : PersistedDoc) (T : String) (t : TaskState)
    (instr : List Step) (tmo : Rat) (now : Nat)
    (hkey : pyStrip T = T) (hne : T ≠ "")
    (hT : dictGet T (file.tasks.getD []) = some t)
    (hactive : file.active_task_id = some T)
    (hpr : isPR t) :
    (initRuntime (some file)).runner = none ∧
    (initRuntime (some file)).doc.tasks = file.tasks.getD [] ∧
    (initRuntime (some file)).doc.active_task_id = file.active_task_id ∧
    ∃ s', startCall (initRuntime (some file)) T instr tmo now =
        .ok (s', { t with state_seq := t.state_seq + 1 }) ∧
      s'.runner = some ⟨T, RunnerPC.loopHead⟩ ∧
      (dictGet T s'.doc.tasks).map TaskState.current_step_index =
        some t.current_step_index := by
  refine ⟨rfl, rfl, by simp [initRuntime, loadState, hactive], ?_⟩
  unfold startCall
  rw [hkey, if_neg hne]
  have hconf : activeConflict (initRuntime (some file)).doc T = none := by
    unfold activeConflict
    simp [initRuntime, loadState, hactive]
  rw [hconf]
  have hget : dictGet T (initRuntime (some file)).doc.tasks = some t := by
    simpa [initRuntime, loadState] using hT
  simp only [hget]
  have hnt : t.status = TStatus.running ∨ t.status = TStatus.pending :=
    hpr.elim .inr .inl
  refine ⟨_, rfl, ?_, ?_⟩
  · exact if_pos ⟨hnt, rfl⟩
  · simp [persistState, dictGet_dictSet_self]

/-- Witness for C1's amended statement on the concrete persisted file. -/
theorem c1_amended_witness :
    ∃ s', startCall (initRuntime (some c1Doc)) "T" [] 5 42 =
        .ok (s', { c1Task with state_seq := c1Task.state_seq + 1 }) ∧
      s'.runner = some ⟨"T", RunnerPC.loopHead⟩ ∧
      (dictGet "T" s'.doc.tasks).map TaskState.current_step_index =
        some c1Task.current_step_index :=
  (c1_amended c1Doc "T" c1Task [] 5 42 (by decide) (by decide) (by decide) (by decide)
    (Or.inl rfl)).2.2.2

/-- Facts every successful `start` guarantees about the state it returns: the
key was nonempty, the returned task is stored under it, `active_task_id`
tracks it exactly when it is non-terminal, and a non-terminal task always has
an occupied runner slot afterwards. -/
theorem startCall_ok_spec {s : Sys} {task_id : String} {instr : List Step} {tmo : Rat}
    {now : Nat} {s1 : Sys} {t1 : TaskState}
    (h : startCall s task_id instr tmo now = .ok (s1, t1)) :
    pyStrip task_id ≠ "" ∧
    dictGet (pyStrip task_id) s1.doc.tasks = some t1 ∧
    s1.doc.active_task_id =
      (if t1.status = TStatus.running ∨ t1.status = TStatus.pending
        then some (pyStrip task_id) else none) ∧
    ((t1.status = TStatus.running ∨ t1.status = TStatus.pending) → s1.runner ≠ none) := by
  by_cases hkey : pyStrip task_id = ""
  · rw [startCall, if_pos hkey] at h
    cases h
  · rw [startCall, if_neg hkey] at h
    cases hconf : activeConflict s.doc (pyStrip task_id) with
    | some a =>
      rw [hconf] at h
      cases h
    | none =>
      rw [hconf] at h
      cases hdg : dictGet (pyStrip task_id) s.doc.tasks with
      | some existing =>
        rw [hdg] at h
        simp only [Except.ok.injEq, Prod.mk.injEq] at h
        obtain ⟨hs1, ht1⟩ := h
        subst hs1
        subst ht1
        refine ⟨hkey, ?_, ?_, ?_⟩
        · simp [persistState, dictGet_dictSet_self]
        · simp [persistState]
        · intro hnt
          simp only at hnt
          by_cases hr : s.runner = none
          · simp [hnt, hr]
          · simp only [persistState]
            by_cases hc : (existing.status = TStatus.running ∨ existing.status = TStatus.pending)
                ∧ s.runner = none
            · simp [if_pos hc]
            · simp only [if_neg hc]
              exact hr
      | none =>
        rw [hdg] at h
        simp only [Except.ok.injEq, Prod.mk.injEq] at h
        obtain ⟨hs1, ht1⟩ := h
        subst hs1
        subst ht1
        refine ⟨hkey, ?_, ?_, ?_⟩
        · simp [persistState, dictGet_dictSet_self]
        · simp [persistState]
        · intro _
          by_cases hr : s.runner = none
          · simp [hr]
          · simp only [if_neg hr]
            exact hr

/-- C5: re-issuing the same `start` with no interleaved mutation succeeds,
returns the same task state except for a single `state_seq` bump, keeps the
runner slot exactly as it was (no second runner is spawned while one is live),
and only rewrites the task's own dictionary slot. -/
theorem c5_start_idempotent (s : Sys) (task_id : String) (instr : List Step)
    (tmo : Rat) (n1 n2 : Nat) (s1 : Sys) (t1 : TaskState)
    (h : startCall s task_id instr tmo n1 = .ok (s1, t1)) :
    ∃ s2, startCall s1 task_id instr tmo n2 =
        .ok (s2, { t1 with state_seq := t1.state_seq + 1 }) ∧
      s2.runner = s1.runner ∧
      s2.doc.active_task_id = s1.doc.active_task_id ∧
      s2.doc.tasks =
        dictSet (pyStrip task_id) { t1 with state_seq := t1.state_seq + 1 } s1.doc.tasks := by
  obtain ⟨hkey, hget1, hactive1, hrun1⟩ := startCall_ok_spec h
  have hconf2 : activeConflict s1.doc (pyStrip task_id) = none := by
    unfold activeConflict
    rw [hactive1]
    by_cases hnt : t1.status = TStatus.running ∨ t1.status = TStatus.pending
    · simp [if_pos hnt, hkey]
    · simp [if_neg hnt]
  rw [startCall, if_neg hkey]
  simp only [hconf2, hget1]
  refine ⟨_, rfl, ?_, ?_, ?_⟩
  · by_cases hnt : t1.status = TStatus.running ∨ t1.status = TStatus.pending
    · exact if_neg (fun hc => hrun1 hnt hc.2)
    · exact if_neg (fun hc => hnt hc.1)
  · simp only [persistState]
    by_cases hnt : t1.status = TStatus.running ∨ t1.status = TStatus.pending
    · rw [if_pos hnt, hactive1, if_pos hnt]
    · rw [if_neg hnt, hactive1, if_neg hnt]
  · simp [persistState]

/-- Witness for C5: the second `start("t1", ...)` right after the first. -/
theorem c5_start_idempotent_witness :
    ∃ s2, startCall pendingT1Sys "t1" [stepSleep30] 5 101 =
        .ok (s2, { pendingT1Task with state_seq := 2 }) ∧
      s2.runner = pendingT1Sys.runner ∧
      s2.doc.active_task_id = pendingT1Sys.doc.active_task_id ∧
      s2.doc.tasks = dictSet "t1" { pendingT1Task with state_seq := 2 }
        pendingT1Sys.doc.tasks := by
  have h : startCall initialSys "t1" [stepSleep30] 5 100 = .ok (pendingT1Sys, pendingT1Task) := by
    decide
  exact c5_start_idempotent initialSys "t1" [stepSleep30] 5 100 101 pendingT1Sys pendingT1Task h

/-! ## Invariant lemmas for the automation runtime -/

theorem Inv.atMostOne {st : RuntimeState} (h : Inv st) : atMostOneActiveTask st.tasks := by
  intro e1 h1 e2 h2 hp1 hp2
  have a1 := (h.2 e1 h1 hp1).1
  have a2 := (h.2 e2 h2 hp2).1
  rw [a1] at a2
  exact Option.some.inj a2

theorem all_pr_eq_of_aligned {st : RuntimeState} {tid : String} (hInv : Inv st)
    (hal : st.active_task_id = some tid) :
    ∀ e ∈ st.tasks, isPR e.2 → e.1 = tid := by
  intro e he hpr
  have h := (hInv.2 e he hpr).1
  rw [hal] at h
  exact (Option.some.inj h).symm

theorem all_pr_eq_of_conflict_none {st : RuntimeState} {key : String} (hInv : Inv st)
    (hconf : activeConflict st key = none) :
    ∀ e ∈ st.tasks, isPR e.2 → e.1 = key := by
  intro e he hpr
  obtain ⟨hact, hne⟩ := hInv.2 e he hpr
  by_contra hek
  have hnt : e.2.status = TStatus.running ∨ e.2.status = TStatus.pending :=
    hpr.elim .inr .inl
  have hget : dictGet e.1 st.tasks = some e.2 := mem_nodup_dictGet hInv.1 (by simpa using he)
  unfold activeConflict at hconf
  rw [hact] at hconf
  simp only [if_neg hne, if_neg hek, hget, if_pos hnt] at hconf
  exact Option.noConfusion hconf

theorem inv_set_some {st st' : RuntimeState} {tid : String} {v : TaskState}
    (hInv : Inv st) (htid : tid ≠ "")
    (hall : ∀ e ∈ st.tasks, isPR e.2 → e.1 = tid)
    (htasks : st'.tasks = dictSet tid v st.tasks)
    (hact : st'.active_task_id = some tid) : Inv st' := by
  constructor
  · rw [htasks]
    exact dictSet_nodup hInv.1
  · intro e he hpr
    rw [htasks] at he
    rcases mem_dictSet_strong hInv.1 he with rfl | ⟨hmem, hne⟩
    · exact ⟨by rw [hact], htid⟩
    · exact absurd (hall e hmem hpr) hne

theorem inv_set_none {st st' : RuntimeState} {tid : String} {v : TaskState}
    (hInv : Inv st)
    (hall : ∀ e ∈ st.tasks, isPR e.2 → e.1 = tid)
    (htasks : st'.tasks = dictSet tid v st.tasks)
    (hact : st'.active_task_id = none)
    (hv : ¬ isPR v) : Inv st' := by
  constructor
  · rw [htasks]
    exact dictSet_nodup hInv.1
  · intro e he hpr
    rw [htasks] at he
    rcases mem_dictSet_strong hInv.1 he with rfl | ⟨hmem, hne⟩
    · exact absurd hpr hv
    · exact absurd (hall e hmem hpr) hne

theorem inv_set_keep {st st' : RuntimeState} {tid : String} {v : TaskState}
    (hInv : Inv st)
    (htasks : st'.tasks = dictSet tid v st.tasks)
    (hact : st'.active_task_id = st.active_task_id)
    (hv : ¬ isPR v) : Inv st' := by
  constructor
  · rw [htasks]
    exact dictSet_nodup hInv.1
  · intro e he hpr
    rw [htasks] at he
    rcases mem_dictSet_strong hInv.1 he with rfl | ⟨hmem, hne⟩
    · exact absurd hpr hv
    · rw [hact]
      exact hInv.2 e hmem hpr

theorem inv_keep_clear {st st' : RuntimeState} (hInv : Inv st)
    (htasks : st'.tasks = st.tasks)
    (hact : st'.active_task_id = none)
    (hnopr : ∀ e ∈ st.tasks, ¬ isPR e.2) : Inv st' := by
  constructor
  · rw [htasks]
    exact hInv.1
  · intro e he hpr
    rw [htasks] at he
    exact absurd hpr (hnopr e he)

theorem inv_startCall_ok {s : Sys} {task_id : String} {instr : List Step} {tmo : Rat}
    {now : Nat} {s1 : Sys} {t1 : TaskState} (hInv : Inv s.doc)
    (h : startCall s task_id instr tmo now = .ok (s1, t1)) : Inv s1.doc := by
  by_cases hkey : pyStrip task_id = ""
  · rw [startCall, if_pos hkey] at h
    cases h
  · rw [startCall, if_neg hkey] at h
    cases hconf : activeConflict s.doc (pyStrip task_id) with
    | some a =>
      rw [hconf] at h
      cases h
    | none =>
      rw [hconf] at h
      have hall := all_pr_eq_of_conflict_none hInv hconf
      cases hdg : dictGet (pyStrip task_id) s.doc.tasks with
      | some existing =>
        rw [hdg] at h
        simp only [Except.ok.injEq, Prod.mk.injEq] at h
        obtain ⟨hs1, -⟩ := h
        subst hs1
        by_cases hnt : existing.status = TStatus.running ∨ existing.status = TStatus.pending
        · exact inv_set_some hInv hkey hall rfl (by simp [persistState, if_pos hnt])
        · refine inv_set_none hInv hall rfl (by simp [persistState, if_neg hnt]) ?_
          intro hpr
          exact hnt (hpr.elim .inr .inl)
      | none =>
        rw [hdg] at h
        simp only [Except.ok.injEq, Prod.mk.injEq] at h
        obtain ⟨hs1, -⟩ := h
        subst hs1
        exact inv_set_some hInv hkey hall rfl rfl

theorem inv_cmdStart {s : Sys} (hInv : Inv s.doc) (task_id : String) (instr : List Step)
    (tmo : Rat) (now : Nat) : Inv (sysStep s (.cmdStart task_id instr tmo now)).doc := by
  cases hc : startCall s task_id instr tmo now with
  | error e =>
    have h1 : sysStep s (.cmdStart task_id instr tmo now) = s := by
      simp [sysStep, hc]
    rw [h1]
    exact hInv
  | ok p =>
    obtain ⟨s1, t1⟩ := p
    have h1 : sysStep s (.cmdStart task_id instr tmo now) = s1 := by
      simp [sysStep, hc]
    rw [h1]
    exact inv_startCall_ok hInv hc

theorem inv_cancelCall {s : Sys} (hInv : Inv s.doc) (task_id : String) (now : Nat) :
    Inv (cancelCall s task_id now).1.doc := by
  unfold cancelCall
  cases hdg : dictGet (pyStrip task_id) s.doc.tasks with
  | none =>
    simp only [hdg]
    exact hInv
  | some state0 =>
    simp only [hdg]
    refine inv_set_keep hInv rfl rfl ?_
    by_cases hpr : ({ state0 with cancel_requested := true } : TaskState).status = TStatus.pending
        ∨ ({ state0 with cancel_requested := true } : TaskState).status = TStatus.running
    · simp only [if_pos hpr]
      intro hc
      rcases hc with hc | hc <;> simp [isPR] at hc
    · simp only [if_neg hpr]
      intro hc
      exact hpr (by simpa [isPR] using hc)

theorem inv_cmdCancel {s : Sys} (hInv : Inv s.doc) (task_id : String) (now : Nat) :
    Inv (sysStep s (.cmdCancel task_id now)).doc := by
  have h1 : sysStep s (.cmdCancel task_id now) = (cancelCall s task_id now).1 := rfl
  rw [h1]
  exact inv_cancelCall hInv task_id now

theorem inv_runnerPhase1 {st : RuntimeState} {tid : String} (hInv : Inv st)
    (hal : st.active_task_id = some tid) (now : Nat) :
    Inv (runnerPhase1 st tid now).1 := by
  have hall := all_pr_eq_of_aligned hInv hal
  unfold runnerPhase1
  cases hdg : dictGet tid st.tasks with
  | none => exact hInv
  | some state =>
    simp only [hdg]
    by_cases hcr : state.cancel_requested
    · simp only [if_pos hcr]
      exact inv_set_none hInv hall rfl rfl
        (by intro hpr; rcases hpr with h | h <;> simp [isPR] at h <;> exact h)
    · simp only [if_neg hcr]
      by_cases hterm : state.status = TStatus.success ∨ state.status = TStatus.failed ∨
          state.status = TStatus.cancelled
      · simp only [if_pos hterm]
        refine inv_keep_clear hInv rfl rfl ?_
        intro e he hpr
        have hek := hall e he hpr
        have hget : dictGet e.1 st.tasks = some e.2 :=
          mem_nodup_dictGet hInv.1 (by simpa using he)
        rw [hek, hdg] at hget
        have he2 : e.2 = state := (Option.some.inj hget).symm
        rw [he2] at hpr
        rcases hterm with h | h | h <;> rcases hpr with h' | h' <;> rw [h] at h' <;> cases h'
      · simp only [if_neg hterm]
        by_cases hlen : state.instructions.length ≤ state.current_step_index
        · simp only [if_pos hlen]
          exact inv_set_none hInv hall rfl rfl
            (by intro hpr; rcases hpr with h | h <;> simp [isPR] at h <;> exact h)
        · simp only [if_neg hlen]
          have htid : tid ≠ "" := by
            have hmem : (tid, state) ∈ st.tasks := dictGet_mem hdg
            by_cases hpr : isPR state
            · exact (hInv.2 (tid, state) hmem hpr).2
            · exfalso
              apply hpr
              unfold isPR
              cases hst : state.status with
              | pending => exact Or.inl rfl
              | running => exact Or.inr rfl
              | success => exact absurd (Or.inl hst) hterm
              | failed => exact absurd (Or.inr (Or.inl hst)) hterm
              | cancelled => exact absurd (Or.inr (Or.inr hst)) hterm
          cases hcmd : extractStepCommand (state.instructions.getD state.current_step_index
              ⟨none, none, none⟩) with
          | none =>
            cases hwf : extractStepWaitFor (state.instructions.getD state.current_step_index
                ⟨none, none, none⟩) with
            | none =>
              simp only [hcmd, hwf]
              by_cases hpr : isPR state
              · exact inv_set_some hInv htid hall rfl hal
              · exact inv_set_keep hInv rfl rfl (by simpa [isPR] using hpr)
            | some target =>
              simp only [hcmd, hwf]
              exact inv_set_some hInv htid hall rfl hal
          | some c =>
            cases hwf : extractStepWaitFor (state.instructions.getD state.current_step_index
                ⟨none, none, none⟩) with
            | none =>
              simp only [hcmd, hwf]
              exact inv_set_some hInv htid hall rfl hal
            | some target =>
              simp only [hcmd, hwf]
              exact inv_set_some hInv htid hall rfl hal

theorem inv_recordStepOutcome {st : RuntimeState} {tid : String} (hInv : Inv st)
    (hal : st.active_task_id = some tid) (r : StepResult) (outcome : ExecOutcome)
    (d : Str) (now : Nat) :
    Inv (recordStepOutcome st tid r outcome d now).1 := by
  have hall := all_pr_eq_of_aligned hInv hal
  unfold recordStepOutcome
  cases hdg : dictGet tid st.tasks with
  | none => exact hInv
  | some state =>
    simp only [hdg]
    by_cases hcr : state.cancel_requested
    · simp only [if_pos (show ({ state with
          steps := setStepResult state.steps r.index r } : TaskState).cancel_requested from hcr)]
      exact inv_set_none hInv hall rfl rfl
        (by intro hpr; rcases hpr with h | h <;> simp [isPR] at h <;> exact h)
    · simp only [if_neg (show ¬ ({ state with
          steps := setStepResult state.steps r.index r } : TaskState).cancel_requested = true
          from hcr)]
      by_cases hfail : outcome.timed_out = true ∨ outcome.returncode ≠ 0
      · simp only [if_pos hfail]
        exact inv_set_none hInv hall rfl rfl
          (by intro hpr; rcases hpr with h | h <;> simp [isPR] at h <;> exact h)
      · simp only [if_neg hfail]
        by_cases hpr : isPR state
        · refine inv_set_some hInv ?_ hall rfl hal
          exact (hInv.2 (tid, state) (dictGet_mem hdg) hpr).2
        · exact inv_set_keep hInv rfl rfl (by simpa [isPR] using hpr)

theorem inv_sysPhase1 {s : Sys} {ctl : RunnerCtl} (hInv : Inv s.doc)
    (hr : s.runner = some ctl) (hal : s.doc.active_task_id = some ctl.tid) (now : Nat) :
    Inv (sysPhase1 s now).doc := by
  unfold sysPhase1
  rw [hr]
  obtain ⟨tid, pc⟩ := ctl
  cases pc with
  | loopHead =>
    have h := inv_runnerPhase1 hInv hal now
    simp only []
    cases hout : (runnerPhase1 s.doc tid now).2 with
    | exitRunner =>
      cases hrp : runnerPhase1 s.doc tid now with
      | mk doc' out =>
        rw [hrp] at hout h
        subst hout
        exact h
    | continueLoop =>
      cases hrp : runnerPhase1 s.doc tid now with
      | mk doc' out =>
        rw [hrp] at hout h
        subst hout
        exact h
    | beginShell i c tmo =>
      cases hrp : runnerPhase1 s.doc tid now with
      | mk doc' out =>
        rw [hrp] at hout h
        subst hout
        exact h
    | beginWaitFor i tgt tmo =>
      cases hrp : runnerPhase1 s.doc tid now with
      | mk doc' out =>
        rw [hrp] at hout h
        subst hout
        exact h
  | execShell i c tmo => exact hInv
  | execWaitFor i tgt tmo => exact hInv

theorem inv_sysPhase2 {s : Sys} {ctl : RunnerCtl} (hInv : Inv s.doc)
    (hr : s.runner = some ctl) (hal : s.doc.active_task_id = some ctl.tid)
    (outcome : ExecOutcome) (now : Nat) :
    Inv (sysPhase2 s outcome now).doc := by
  unfold sysPhase2
  rw [hr]
  obtain ⟨tid, pc⟩ := ctl
  cases pc with
  | loopHead => exact hInv
  | execShell i c tmo =>
    exact inv_recordStepOutcome hInv hal (shellStepResult i c tmo outcome now) outcome
      (strL "command failed") now
  | execWaitFor i tgt tmo =>
    exact inv_recordStepOutcome hInv hal (waitForStepResult i tgt tmo outcome now) outcome
      (strL "wait_for failed") now

/-- C2 counterexample: after the `c2Trace` interleaving — start `t1`, cancel it,
start `t2`, let the stale `t1` runner clear `active_task_id`, start `t3` — the
store holds two pending tasks (`t2` and `t3`), so the at-most-one-active-task
claim is false of the code. -/
theorem c2_counterexample :
    ¬ atMostOneActiveTask (sysRun initialSys c2Trace).doc.tasks ∧
    (dictGet "t2" (sysRun initialSys c2Trace).doc.tasks).map TaskState.status =
      some TStatus.pending ∧
    (dictGet "t3" (sysRun initialSys c2Trace).doc.tasks).map TaskState.status =
      some TStatus.pending := by
  decide

/-- C2 amended: the at-most-one-active-task invariant (together with
`active_task_id` tracking the unique active task) is preserved by `start` and
`cancel` commands and by runner critical sections whose runner belongs to the
task named by `active_task_id`; under it, `start` for a different task while the
active one is pending/running raises the conflict `RuntimeError` and changes
nothing.  (A runner critical section for a task that is no longer the active
one can clear `active_task_id` and break the invariant — see the
counterexample.) -/
theorem c2_amended (s : Sys) (hInv : Inv s.doc) :
    atMostOneActiveTask s.doc.tasks ∧
    (∀ k t, (k, t) ∈ s.doc.tasks → isPR t →
      ∀ task_id instr tmo now, pyStrip task_id ≠ "" → k ≠ pyStrip task_id →
        startCall s task_id instr tmo now =
          .error (.conflict ("Another automation task is active on device: " ++ k)) ∧
        sysStep s (.cmdStart task_id instr tmo now) = s) ∧
    (∀ task_id instr tmo now, Inv (sysStep s (.cmdStart task_id instr tmo now)).doc) ∧
    (∀ task_id now, Inv (sysStep s (.cmdCancel task_id now)).doc) ∧
    (∀ ctl now, s.runner = some ctl → s.doc.active_task_id = some ctl.tid →
      Inv (sysStep s (.runnerStep1 now)).doc) ∧
    (∀ ctl outcome now, s.runner = some ctl → s.doc.active_task_id = some ctl.tid →
      Inv (sysStep s (.runnerStep2 outcome now)).doc) := by
  refine ⟨hInv.atMostOne, ?_, inv_cmdStart hInv, inv_cmdCancel hInv, ?_, ?_⟩
  · intro k t hmem hpr task_id instr tmo now hkey hne
    obtain ⟨hact, hkne⟩ := hInv.2 (k, t) hmem hpr
    have hnt : t.status = TStatus.running ∨ t.status = TStatus.pending :=
      hpr.elim .inr .inl
    have hget : dictGet k s.doc.tasks = some t := mem_nodup_dictGet hInv.1 hmem
    have hconf : activeConflict s.doc (pyStrip task_id) = some k := by
      unfold activeConflict
      rw [hact]
      simp only [if_neg hkne, if_neg hne, hget, if_pos hnt]
    have herr : startCall s task_id instr tmo now =
        .error (.conflict ("Another automation task is active on device: " ++ k)) := by
      rw [startCall, if_neg hkey, hconf]
    refine ⟨herr, ?_⟩
    simp [sysStep, herr]
  · intro ctl now hr hal
    have h1 : sysStep s (.runnerStep1 now) = sysPhase1 s now := rfl
    rw [h1]
    exact inv_sysPhase1 hInv hr hal now
  · intro ctl outcome now hr hal
    have h1 : sysStep s (.runnerStep2 outcome now) = sysPhase2 s outcome now := rfl
    rw [h1]
    exact inv_sysPhase2 hInv hr hal outcome now

/-- Witness for C2's amended statement: on the concrete post-`start("t1")` state
the invariant holds and `start("t2")` is refused with the conflict error. -/
theorem c2_amended_witness :
    startCall pendingT1Sys "t2" [stepSleep30] 5 101 =
      .error (.conflict "Another automation task is active on device: t1") :=
  ((c2_amended pendingT1Sys (by decide)).2.1 "t1" pendingT1Task (by decide) (Or.inl rfl)
    "t2" [stepSleep30] 5 101 (by decide) (by decide)).1

/-! ## Character-list lemmas for the environment-injection claims -/

theorem splitOnCharL_ne_nil (c : Char) : ∀ (l : Str), splitOnCharL c l ≠ []
  | [] => by simp [splitOnCharL]
  | x :: xs => by
    rw [splitOnCharL]
    by_cases hx : x = c <;> simp [hx]

theorem splitOnCharL_no_sep (c : Char) : ∀ (l : Str), ∀ p ∈ splitOnCharL c l, c ∉ p
  | [], p, hp => by
    simp [splitOnCharL] at hp
    simp [hp]
  | x :: xs, p, hp => by
    cases h : splitOnCharL c xs with
    | nil => exact absurd h (splitOnCharL_ne_nil c xs)
    | cons r rs =>
      rw [splitOnCharL] at hp
      by_cases hx : x = c
      · rw [if_pos hx] at hp
        rcases List.mem_cons.mp hp with rfl | hp'
        · simp
        · exact splitOnCharL_no_sep c xs p hp'
      · rw [if_neg hx, h] at hp
        rcases List.mem_cons.mp hp with rfl | hp'
        · intro hc
          rcases List.mem_cons.mp hc with hc | hc
          · exact hx hc.symm
          · exact splitOnCharL_no_sep c xs r (h ▸ List.mem_cons_self r rs)
              (by simpa using hc)
        · exact splitOnCharL_no_sep c xs p (h ▸ List.mem_cons_of_mem r hp')

end Portacode
